import Mathlib

/-!
Shallow embedding of the REPID explainer core, from the repository files
repid_explainer/utils.py and repid_explainer/repid.py.

Modelling conventions:
* machine floats carrying data values are exact rationals;
* the value np.inf that perform_split uses as a rejection cost is the top
  element of WithTop ℚ;
* the signed extended values that can flow through Node.computeSplit
  (finite floats, +inf from rejected splits, -inf) are the inductive type XF;
* a raised Python exception is Except.error with a message describing the
  exception; attributes that an object may lack (Node.obj_val_parent is
  never set by the constructor) are modelled as Option (Option _), where the
  outer none means the attribute is absent and in Python reading it raises
  AttributeError.
-/

/-- Signed extended rational: a finite float, +inf or -inf.  The sub, mul and
div operations below implement the IEEE cases that can arise in
Node.computeSplit; combinations that would produce NaN are modelled as errors
(no execution of the embedded program reaches them). -/
inductive XF where
  | negInf : XF
  | fin : ℚ → XF
  | posInf : XF
  deriving DecidableEq

/-- Conversion of a possibly-infinite objective value (np.inf is the top
element) into a signed extended value. -/
def XF.ofWithTop (x : WithTop ℚ) : XF :=
  WithTop.recTopCoe XF.posInf XF.fin x

/-- Float subtraction on signed extended values. -/
def XF.sub : XF → XF → Except String XF
  | XF.fin a, XF.fin b => Except.ok (XF.fin (a - b))
  | XF.fin _, XF.posInf => Except.ok XF.negInf
  | XF.fin _, XF.negInf => Except.ok XF.posInf
  | XF.posInf, XF.fin _ => Except.ok XF.posInf
  | XF.negInf, XF.fin _ => Except.ok XF.negInf
  | XF.posInf, XF.negInf => Except.ok XF.posInf
  | XF.negInf, XF.posInf => Except.ok XF.negInf
  | XF.posInf, XF.posInf => Except.error "nan: inf - inf"
  | XF.negInf, XF.negInf => Except.error "nan: -inf + inf"

/-- Float multiplication on signed extended values. -/
def XF.mul : XF → XF → Except String XF
  | XF.fin a, XF.fin b => Except.ok (XF.fin (a * b))
  | XF.fin a, XF.posInf =>
      if a = 0 then Except.error "nan: 0 * inf"
      else Except.ok (if 0 < a then XF.posInf else XF.negInf)
  | XF.fin a, XF.negInf =>
      if a = 0 then Except.error "nan: 0 * inf"
      else Except.ok (if 0 < a then XF.negInf else XF.posInf)
  | XF.posInf, XF.fin b =>
      if b = 0 then Except.error "nan: 0 * inf"
      else Except.ok (if 0 < b then XF.posInf else XF.negInf)
  | XF.negInf, XF.fin b =>
      if b = 0 then Except.error "nan: 0 * inf"
      else Except.ok (if 0 < b then XF.negInf else XF.posInf)
  | XF.posInf, XF.posInf => Except.ok XF.posInf
  | XF.posInf, XF.negInf => Except.ok XF.negInf
  | XF.negInf, XF.posInf => Except.ok XF.negInf
  | XF.negInf, XF.negInf => Except.ok XF.posInf

/-- Float division on signed extended values (division of a finite nonzero
value by zero gives a signed infinity, as for numpy floats). -/
def XF.div : XF → XF → Except String XF
  | XF.fin a, XF.fin b =>
      if b = 0 then
        if a = 0 then Except.error "nan: 0 / 0"
        else Except.ok (if 0 < a then XF.posInf else XF.negInf)
      else Except.ok (XF.fin (a / b))
  | XF.posInf, XF.fin b => Except.ok (if b < 0 then XF.negInf else XF.posInf)
  | XF.negInf, XF.fin b => Except.ok (if b < 0 then XF.posInf else XF.negInf)
  | XF.fin _, XF.posInf => Except.ok (XF.fin 0)
  | XF.fin _, XF.negInf => Except.ok (XF.fin 0)
  | _, _ => Except.error "nan: inf / inf"

/-- Strict float comparison on signed extended values. -/
def XF.lt : XF → XF → Bool
  | XF.negInf, XF.negInf => false
  | XF.negInf, _ => true
  | _, XF.negInf => false
  | XF.posInf, _ => false
  | XF.fin _, XF.posInf => true
  | XF.fin a, XF.fin b => decide (a < b)

/-- Extract the error message of a Python-level exception, if one was
raised. -/
def errMsg {α : Type} : Except String α → Option String
  | Except.error s => some s
  | Except.ok _ => none

/-- Fuel-driven core of the Python builtin range(start, stop, step) for a
positive step: emit start while start < stop, then advance by step. -/
def pyRangeAux : ℕ → ℕ → ℕ → ℕ → List ℕ
  | 0, _, _, _ => []
  | fuel + 1, start, stop, step =>
      if start < stop then start :: pyRangeAux fuel (start + step) stop step
      else []

/-- The Python builtin range(start, stop, step); range with step 0 raises in
Python but the only caller guards that case, so it is rendered as []. -/
def pyRange (start stop step : ℕ) : List ℕ :=
  if step = 0 then [] else pyRangeAux (stop - start) start stop step

/-- Embedding of a natural number into the rationals, written so that the
kernel can evaluate it (it is provably equal to the cast). -/
def qOfNat (n : ℕ) : ℚ := mkRat n 1

/-- Embedding of an integer into the rationals, written so that the kernel
can evaluate it (it is provably equal to the cast). -/
def qOfInt (i : ℤ) : ℚ := mkRat i 1

/-- np.unique: the sorted list of distinct values. -/
def npUnique (l : List ℚ) : List ℚ :=
  (l.insertionSort (· ≤ ·)).dedup

/-- np.percentile with the default linear interpolation: for percentage q,
interpolate the sorted values at fractional index (q/100)*(n-1). -/
def npPercentile (a : List ℚ) (q : ℚ) : ℚ :=
  let s := a.insertionSort (· ≤ ·)
  let h : ℚ := (q / 100) * (qOfNat s.length - 1)
  let lo := (⌊h⌋).toNat
  let hi := (⌈h⌉).toNat
  s.getD lo 0 + (h - qOfInt ⌊h⌋) * (s.getD hi 0 - s.getD lo 0)

/-- Number of columns of a rectangular two-dimensional array stored as a list
of rows. -/
def ncols (rows : List (List ℚ)) : ℕ :=
  (rows.headD []).length

/-- Fancy indexing rows[idxs] of a two-dimensional array by a list of row
indices. -/
def selectRows (rows : List (List ℚ)) (idxs : List ℕ) : List (List ℚ) :=
  idxs.map (fun i => rows.getD i [])

/-- Boolean-mask indexing rows[mask] of a two-dimensional array (numpy
requires the mask length to equal the number of rows; theorems carry that
hypothesis). -/
def boolMask (mask : List Bool) (rows : List (List ℚ)) : List (List ℚ) :=
  (mask.zip rows).filterMap (fun p => if p.1 then some p.2 else none)

/-- np.mean(ice_curve, axis=0): the per-column mean across rows. -/
def npMeanAxis0 (rows : List (List ℚ)) : List ℚ :=
  (List.range (ncols rows)).map
    (fun j => (rows.map (fun r => r.getD j 0)).sum / qOfNat rows.length)

/-- utils.SS_L2: sum over all rows and grid columns of the squared deviation
of each entry from the per-column mean across rows. -/
def SS_L2 (ice_curve : List (List ℚ)) : ℚ :=
  let y_pred := npMeanAxis0 ice_curve
  (ice_curve.map
    (fun r => ((List.range (ncols ice_curve)).map
      (fun j => (r.getD j 0 - y_pred.getD j 0) ^ 2)).sum)).sum

/-- utils.right_of_split: boolean membership of the right side, true where
the feature value is strictly greater than the split point. -/
def right_of_split (split_point : ℚ) (feature : List ℚ) : List Bool :=
  feature.map (fun val => decide (split_point < val))

/-- The rows of the curve collection whose feature value is at most the split
point (the left partition, in the words of the specification). -/
def specLeft (split_point : ℚ) (feature : List ℚ) (ice : List (List ℚ)) : List (List ℚ) :=
  (feature.zip ice).filterMap (fun p => if p.1 ≤ split_point then some p.2 else none)

/-- The rows of the curve collection whose feature value is strictly greater
than the split point (the right partition). -/
def specRight (split_point : ℚ) (feature : List ℚ) (ice : List (List ℚ)) : List (List ℚ) :=
  (feature.zip ice).filterMap (fun p => if split_point < p.1 then some p.2 else none)

/-- utils.perform_split: score one threshold candidate.  A candidate leaving
fewer than min_node_size samples on either side gets cost np.inf; otherwise
the cost is objective(left) + objective(right).  The objective is a Python
callable and may raise, hence the Except-valued argument.  The size test on
the right count uses integer arithmetic exactly as Python does. -/
def perform_split (split_point : ℚ) (feature : List ℚ) (ice_curve : List (List ℚ))
    (min_node_size : ℕ) (objective : List (List ℚ) → Except String ℚ) :
    Except String (WithTop ℚ) :=
  let right_side := right_of_split split_point feature
  if ((right_side.count true : ℤ) < (min_node_size : ℤ)) ∨
     ((feature.length : ℤ) - (min_node_size : ℤ) < (right_side.count true : ℤ)) then
    Except.ok ⊤
  else do
    let ice_right := boolMask right_side ice_curve
    let ice_left := boolMask (right_side.map (fun b => !b)) ice_curve
    let l ← objective ice_left
    let r ← objective ice_right
    Except.ok ((l + r : ℚ) : WithTop ℚ)

/-- utils.generate_split_candidates_numeric.  The all-numeric dtype check
always passes in this model since values are rationals.  data.sort() sorts
ascending; the raw candidates are the sorted values at indices
range(min_node_size, len(data) - min_node_size, min_node_size) (a step of
zero raises ValueError in Python); with no quantile count the unique raw
candidates are returned, otherwise np.percentile is taken at the probability
grid linspace(0, 1, n_quantiles + 1) scaled to percent (np.percentile on an
empty list raises). -/
def generate_split_candidates_numeric (data : List ℚ) (n_quantiles : Option ℕ)
    (min_node_size : ℕ) : Except String (List ℚ) :=
  if min_node_size = 0 then
    Except.error "ValueError: range() arg 3 must not be zero"
  else
    let sorted := data.insertionSort (· ≤ ·)
    let idx := pyRange min_node_size (data.length - min_node_size) min_node_size
    let split_point := idx.map (fun i => sorted.getD i 0)
    match n_quantiles with
    | none => Except.ok (npUnique split_point)
    | some nq =>
        if split_point.length = 0 then
          Except.error "IndexError: percentile of an empty array"
        else
          Except.ok (npUnique ((List.range (nq + 1)).map
            (fun i => npPercentile split_point ((qOfNat i / qOfNat nq) * 100))))

/-- The Python function object find_best_split placed in a one-argument call
position.  In computeSplit the call chain is
split_node(data, ice, find_best_split, m); split_node forwards its third
parameter (named optimizer) into the objective slot of find_best_split, and
perform_split then calls objective(ice_left) with a single argument, which
raises TypeError because find_best_split needs four. -/
def fbsCallable : List (List ℚ) → Except String ℚ :=
  fun _ => Except.error "TypeError: find_best_split() missing 3 required positional arguments"

/-- np.argmin: index of the first minimum, raising on an empty array. -/
def npArgmin (l : List (WithTop ℚ)) : Except String ℕ :=
  match l.min? with
  | none => Except.error "ValueError: attempt to get argmin of an empty sequence"
  | some v => Except.ok (l.indexOf v)

/-- The Python builtin min on a list, raising on an empty list. -/
def pyListMin (l : List (WithTop ℚ)) : Except String (WithTop ℚ) :=
  match l.min? with
  | none => Except.error "ValueError: min() arg is an empty sequence"
  | some v => Except.ok v

/-- utils.find_best_split: candidates for the feature (with the hard-coded
n_quantiles=100), each scored by perform_split, returning the first-minimum
candidate together with its cost. -/
def find_best_split (feature : List ℚ) (ice_curve : List (List ℚ))
    (min_node_size : ℕ) (objective : List (List ℚ) → Except String ℚ) :
    Except String (ℚ × WithTop ℚ) := do
  let candidates ← generate_split_candidates_numeric feature (some 100) min_node_size
  let new_obj ← candidates.mapM (fun c => perform_split c feature ice_curve min_node_size objective)
  let min_ind ← npArgmin new_obj
  Except.ok (candidates.getD min_ind 0, new_obj.getD min_ind ⊤)

/-- The dictionary returned by utils.split_node. -/
structure SplitResult where
  column_index : ℕ
  split_val : WithTop ℚ
  new_tot_obj : WithTop ℚ
  deriving DecidableEq

/-- utils.split_node.  np.apply_along_axis(find_best_split, 0, data, ...)
stacks the per-column (split value, objective) pairs into a 2 x k float
array: splits[0] is the list of per-column split values and splits[1] the
list of per-column objectives.  The comprehension [split[1] for split in
splits] therefore reads entry 1 of each of those two ROWS (an IndexError
when there are fewer than two columns), min / list.index pick among those
two numbers, and the result dictionary is assembled from the chosen row. -/
def split_node (data ice_curve : List (List ℚ))
    (optimizer : List (List ℚ) → Except String ℚ) (min_node_size : ℕ) :
    Except String SplitResult := do
  let results ← (List.range (ncols data)).mapM
    (fun j => find_best_split (data.map (fun row => row.getD j 0)) ice_curve min_node_size optimizer)
  let splits : List (List (WithTop ℚ)) :=
    [results.map (fun r => (r.1 : WithTop ℚ)), results.map (fun r => r.2)]
  let obj_vals ← splits.mapM (fun split => match split.get? 1 with
    | none => Except.error "IndexError: index 1 is out of bounds for axis 0 with size 1"
    | some v => Except.ok v)
  let mn ← pyListMin obj_vals
  let min_ind := obj_vals.indexOf mn
  let row := splits.getD min_ind []
  let sv ← (match row.get? 0 with
    | none => Except.error "IndexError: index 0 is out of bounds"
    | some v => Except.ok v)
  let nto ← (match row.get? 1 with
    | none => Except.error "IndexError: index 1 is out of bounds"
    | some v => Except.ok v)
  Except.ok { column_index := min_ind, split_val := sv, new_tot_obj := nto }

/-- The scalar attributes of repid.Node.  The constructor defaults are the
field defaults; obj_val_parent is not a constructor parameter and is never
initialized, so its outer none means the attribute is absent (reading it
raises AttributeError). -/
structure NodeCore where
  depth : Option ℤ := none
  subset_idx : List ℕ := []
  obj_val : Option XF := none
  obj_val_root : Option XF := none
  obj_val_parent : Option (Option XF) := none
  child_type : Option String := none
  split_feature : Option ℕ := none
  split_val : Option (WithTop ℚ) := none
  stop_criteria_met : Bool := false
  improvement_met : Bool := false
  intImp : Option XF := none
  deriving DecidableEq

/-- repid.Node.revertSplit: sets every evaluation field to a fixed blank
state (False / None); in particular obj_val_parent is assigned the value
None, so after a revert the attribute exists but holds None. -/
def revertSplit (c : NodeCore) : NodeCore :=
  { c with stop_criteria_met := false, improvement_met := false,
           split_feature := none, split_val := none, intImp := none,
           obj_val := none, obj_val_root := none, obj_val_parent := some none }

/-- repid.Node.computeSplit on the scalar attributes (the method touches no
children).  Mirrors the source line by line: the stop check; the objective
of the full curve collection and of the subset; the call
split_node(data[subset], ice_curve, find_best_split, min_split_size) whose
optimizer argument ends up as the objective called inside perform_split (see
fbsCallable); normalization of a missing intImp to 0; the interaction
importance (obj_val - new_tot_obj) / obj_val_parent, whose numerator is
evaluated first and whose denominator reads the obj_val_parent attribute
(AttributeError when absent, TypeError when it holds None); the threshold;
and the two outcome branches.  A raised exception discards the in-place
mutations the Python method had already made, which is observationally
irrelevant here because the only caller (node_to_split) itself raises before
reading the node again. -/
def computeSplitCore (c : NodeCore) (data ice_curve : List (List ℚ))
    (objective : List (List ℚ) → ℚ) (gamma : ℚ) (min_split_size : ℕ) :
    Except String NodeCore :=
  if c.subset_idx.length < min_split_size || c.improvement_met then
    Except.ok { c with stop_criteria_met := true }
  else do
    let obj_root := objective ice_curve
    let obj_self := objective (selectRows ice_curve c.subset_idx)
    let split ← split_node (selectRows data c.subset_idx) ice_curve fbsCallable min_split_size
    let intImpPrior : XF := match c.intImp with
      | none => XF.fin 0
      | some v => v
    let num ← XF.sub (XF.fin obj_self) (XF.ofWithTop split.new_tot_obj)
    let ovp ← (match c.obj_val_parent with
      | none => Except.error "AttributeError: Node object has no attribute obj_val_parent"
      | some v => Except.ok v)
    let ovpX ← (match ovp with
      | none => Except.error "TypeError: unsupported operand type for /: float and NoneType"
      | some x => Except.ok x)
    let intImpNew ← XF.div num ovpX
    let threshold ← (if intImpPrior = XF.fin 0 then Except.ok (XF.fin gamma)
      else XF.mul intImpPrior (XF.fin gamma))
    if XF.lt intImpNew threshold then
      Except.ok { c with obj_val_root := some (XF.fin obj_root),
                         obj_val := some (XF.fin obj_self),
                         intImp := some intImpPrior,
                         improvement_met := true }
    else
      Except.ok { c with obj_val_root := some (XF.fin obj_root),
                         split_feature := some split.column_index,
                         split_val := some split.split_val,
                         intImp := some intImpNew,
                         obj_val_parent := some (some (XF.fin obj_self)),
                         obj_val := some (XF.ofWithTop split.new_tot_obj) }

/-- A repid.Node: its scalar attributes together with the two children slots
of its children dictionary. -/
inductive Node where
  | mk : NodeCore → Option Node → Option Node → Node

/-- The scalar attributes of a node. -/
def Node.core : Node → NodeCore
  | Node.mk c _ _ => c

/-- The children["left"] slot. -/
def Node.left : Node → Option Node
  | Node.mk _ l _ => l

/-- The children["right"] slot. -/
def Node.right : Node → Option Node
  | Node.mk _ _ r => r

/-- The attributes a child receives in Node.computeChildren: constructor
keywords depth+1, subset_idx, child_type, improvement_met, intImp and
stop_criteria_met; every other attribute keeps its constructor default. -/
def childCore (c : NodeCore) (d : ℤ) (sub : List ℕ) (ctype : String) : NodeCore :=
  { depth := some (d + 1), subset_idx := sub, child_type := some ctype,
    stop_criteria_met := c.stop_criteria_met,
    improvement_met := c.improvement_met, intImp := c.intImp }

/-- repid.Node.computeChildren: silently returns when a stop or improvement
flag is set; raises ValueError when no split feature is stored; otherwise
partitions np.where over the WHOLE data table (data[:, split_feature]
compared against split_val, at most on the left and strictly greater on the
right) and attaches two fresh children one level deeper. -/
def Node.computeChildren (n : Node) (data : List (List ℚ)) : Except String Node :=
  if n.core.improvement_met || n.core.stop_criteria_met then
    Except.ok n
  else
    match n.core.split_feature with
    | none => Except.error "ValueError: Please compute the split first via computeSplit()."
    | some f =>
        match n.core.split_val with
        | none => Except.error "TypeError: elementwise comparison with None"
        | some v =>
            let ind_left := (List.range data.length).filter
              (fun i => decide ((((data.getD i []).getD f 0 : ℚ) : WithTop ℚ) ≤ v))
            let ind_right := (List.range data.length).filter
              (fun i => decide (v < (((data.getD i []).getD f 0 : ℚ) : WithTop ℚ)))
            match n.core.depth with
            | none => Except.error "TypeError: unsupported operand type for +: NoneType and int"
            | some d =>
                Except.ok (Node.mk n.core
                  (some (Node.mk (childCore n.core d ind_left "left") none none))
                  (some (Node.mk (childCore n.core d ind_right "right") none none)))

/-- The subsets of the two materialized children, if computeChildren
succeeded and attached them. -/
def childrenSubsets (e : Except String Node) : Option (List ℕ × List ℕ) :=
  match e with
  | Except.ok (Node.mk _ (some l) (some r)) => some (l.core.subset_idx, r.core.subset_idx)
  | _ => none

/-- The max_obj_node accumulator dictionary of utils.node_to_split. -/
structure BestAcc where
  node : Option Node
  intImp : XF

/-- utils.node_to_split.  For a present node the first statement evaluates
condition = node.improvement_met | node.stop_criteria_met
| (node.children["left"] is not None) | (node.childten["right"] is not None);
the fourth operand reads the attribute childten, which no Node object has,
and Python bitwise | evaluates all operands, so AttributeError is raised
unconditionally.  Everything after the condition (computeSplit, the best
candidate update, revertSplit and the recursive traversal of the two
children) is unreachable. -/
def node_to_split (node : Option Node) (max_obj_node : BestAcc)
    (ice_curve data : List (List ℚ)) (objective : List (List ℚ) → ℚ)
    (gamma : ℚ) (min_split_size : ℕ) : Except String BestAcc :=
  match node with
  | none => Except.ok max_obj_node
  | some n =>
      let _cond := n.core.improvement_met || n.core.stop_criteria_met || n.left.isSome
      Except.error "AttributeError: Node object has no attribute childten"

/-- The nonsymmetric growth loop of Repid.fit: n_split iterations, each
creating a fresh accumulator {node: None, intImp: -np.inf} and traversing
the whole tree with node_to_split.  The loop body does nothing further:
the recorded best candidate is never re-evaluated, never committed, and the
root is never modified by the loop. -/
def fitLoop (ice_curve data : List (List ℚ)) (gamma : ℚ) (min_split_size : ℕ) :
    ℕ → Node → Except String Unit
  | 0, _ => Except.ok ()
  | k + 1, root => do
      let _acc ← node_to_split (some root) { node := none, intImp := XF.negInf }
        ice_curve data SS_L2 gamma min_split_size
      fitLoop ice_curve data gamma min_split_size k root

/-- repid.Repid.fit.  The external curve generator generate_ice(model, data,
feature) is outside this core; its resulting curve collection is the
ice_curve parameter.  fit builds the root node over all sample indices with
depth = the configured depth and intImp = the configured floor, then runs the
nonsymmetric loop (the symmetric branch is a pass).  The Python method
returns None and stores nothing, so the result type is Unit. -/
def Repid.fit (n_split : ℕ) (method : String) (intImp0 : ℚ) (depth : ℤ)
    (ice_curve data : List (List ℚ)) (gamma : ℚ) (min_split_size : ℕ) :
    Except String Unit :=
  let root : Node := Node.mk
    { depth := some depth, subset_idx := List.range data.length,
      intImp := some (XF.fin intImp0) } none none
  if method = "nonsymmetric" then
    fitLoop ice_curve data gamma min_split_size n_split root
  else if method = "symmetric" then
    Except.ok ()
  else
    Except.error "ValueError: Argument method must be either symmetric or nonsymmetric."

/-- Identity of Python dict objects is modelled by heap addresses. -/
structure PyHeap where
  next : ℕ

/-- The children default dict of Node.__init__ is evaluated once, when the
def statement executes, and lives at a fixed address from then on. -/
def defaultChildrenAddr : ℕ := 0

/-- The heap right after the class body has executed: the single default
children dict occupies address 0. -/
def pyHeapInit : PyHeap := { next := 1 }

/-- The part of a constructed Node object relevant to container identity:
which dict object its children attribute references. -/
structure NodeObj where
  childrenAddr : ℕ
  deriving DecidableEq

/-- Node.__init__ restricted to the children parameter: a caller passing a
dict reference stores that reference; a caller omitting the argument stores
a reference to the one shared default dict.  No allocation happens in either
case. -/
def Node_init (h : PyHeap) (children : Option ℕ) : PyHeap × NodeObj :=
  match children with
  | some a => (h, { childrenAddr := a })
  | none => (h, { childrenAddr := defaultChildrenAddr })

/-- Concrete fixtures used by the claim theorems. -/
def dataC1 : List (List ℚ) := [[0], [1], [5]]

/-- A node with a committed split (feature 0, threshold 0) whose subset is a
strict subset of the data rows. -/
def nC1 : Node :=
  Node.mk { depth := some 1, subset_idx := [0, 1],
            split_feature := some 0, split_val := some ((0 : ℚ) : WithTop ℚ) } none none

/-- A fresh improvement-gated node with no stored split. -/
def nC6 : Node :=
  Node.mk { improvement_met := true } none none

/-- A 6 x 2 feature table whose two identical columns are [1,1,1,1,1,2]. -/
def dataC3 : List (List ℚ) :=
  [[1, 1], [1, 1], [1, 1], [1, 1], [1, 1], [2, 2]]

/-- A 6 x 1 curve collection. -/
def iceC3 : List (List ℚ) :=
  [[0], [0], [0], [0], [0], [1]]

/-- A fresh root-like node over all six samples with the importance floor
0.1; obj_val_parent is an absent attribute, as after construction. -/
def nC3core : NodeCore :=
  { depth := some 3, subset_idx := [0, 1, 2, 3, 4, 5], intImp := some (XF.fin (1 / 10)) }

/-- A node with initial interaction importance 0.1 whose subset of size one
is below the minimum split size. -/
def nC4core : NodeCore :=
  { depth := some 3, subset_idx := [0], intImp := some (XF.fin (1 / 10)) }

attribute [local semireducible] Rat.add Rat.sub Rat.mul Rat.inv

set_option maxRecDepth 8000 in
set_option maxHeartbeats 2000000 in
/-- Claim C3 (code bug evidence): a fresh node whose subset of six samples
meets the minimum split size runs the split search (every candidate is
rejected with infinite cost on this input, so the miswired objective inside
perform_split is never called) and then crashes at the
interaction-importance formula: the denominator reads obj_val_parent, an
attribute no freshly constructed node has, instead of the computed reference
objective obj_val_root, which is never used. -/
theorem computeSplit_missing_reference_attribute :
    errMsg (computeSplitCore nC3core dataC3 iceC3 SS_L2 (1 / 10) 2) =
      some "AttributeError: Node object has no attribute obj_val_parent" := by decide

/-- Claim C1 (code bug evidence): on a parent whose subset is [0, 1] inside a
three-row table, computeChildren materializes children partitioning the WHOLE
table: the right child receives [1, 2], so the union of the children subsets
is [0, 1, 2], not the parent subset [0, 1] as the claim states. -/
theorem computeChildren_ignores_parent_subset :
    childrenSubsets (Node.computeChildren nC1 dataC1) = some ([0], [1, 2]) ∧
      nC1.core.subset_idx = [0, 1] := by
  constructor
  · rfl
  · rfl

/-- Claim C2 (code bug evidence): the very first growth iteration of fit
raises AttributeError, because node_to_split reads the misspelled attribute
childten of the root node; no split is ever committed and the best candidate
is never re-evaluated. -/
theorem fit_first_iteration_raises :
    errMsg (Repid.fit 5 "nonsymmetric" (1 / 10) 3 [[0], [1]] [[0], [1]] (1 / 10) 10) =
      some "AttributeError: Node object has no attribute childten" := rfl

/-- Claim C4 (code bug evidence): a node with initial interaction importance
0.1 and a subset below the minimum split size takes the early-return path of
computeSplit (only the stop flag is set), yet revertSplit afterwards resets
intImp to None instead of restoring the pre-evaluation value 0.1. -/
theorem revertSplit_destroys_prior_state :
    computeSplitCore nC4core [[0]] [[0]] SS_L2 (1 / 10) 2 =
        Except.ok { nC4core with stop_criteria_met := true } ∧
      (revertSplit { nC4core with stop_criteria_met := true }).intImp = none ∧
      nC4core.intImp = some (XF.fin (1 / 10)) := ⟨rfl, rfl, rfl⟩

/-- Claim C6 counterexample: on an improvement-gated node with no stored
split, computeChildren silently succeeds, returns the node unchanged and
materializes no children, instead of failing with a precondition error as
the claim states. -/
theorem computeChildren_silent_noop :
    Node.computeChildren nC6 [[1]] = Except.ok nC6 ∧
      childrenSubsets (Node.computeChildren nC6 [[1]]) = none ∧
      nC6.core.split_feature = none ∧ nC6.core.improvement_met = true :=
  ⟨rfl, rfl, rfl, rfl⟩

/-- Claim C6 as amended: when neither the improvement flag nor the stop flag
is set, computeChildren on a node with no stored split feature fails with the
ValueError naming the missing prerequisite. -/
theorem computeChildren_requires_split (n : Node) (data : List (List ℚ))
    (h1 : n.core.improvement_met = false) (h2 : n.core.stop_criteria_met = false)
    (h3 : n.core.split_feature = none) :
    Node.computeChildren n data =
      Except.error "ValueError: Please compute the split first via computeSplit()." := by
  simp [Node.computeChildren, h1, h2, h3]

/-- Witness for the amended claim C6 at a freshly constructed node. -/
theorem computeChildren_requires_split_witness :
    Node.computeChildren (Node.mk {} none none) [[1]] =
      Except.error "ValueError: Please compute the split first via computeSplit()." :=
  computeChildren_requires_split (Node.mk {} none none) [[1]] rfl rfl rfl

/-- Claim C8 (code bug evidence): two consecutive Node constructions that
omit the children argument store the SAME dict address - the single default
container evaluated when the constructor was defined - so the container is
shared rather than per-node. -/
theorem node_children_shared_default :
    (Node_init pyHeapInit none).2.childrenAddr =
        (Node_init (Node_init pyHeapInit none).1 none).2.childrenAddr ∧
      (Node_init pyHeapInit none).2.childrenAddr = defaultChildrenAddr := ⟨rfl, rfl⟩

/-- The number of true entries of the right-membership mask equals the number
of feature values strictly greater than the split point. -/
theorem count_right_of_split (p : ℚ) (feat : List ℚ) :
    (right_of_split p feat).count true = (feat.filter (fun v => decide (p < v))).length := by
  induction feat with
  | nil => rfl
  | cons v fs ih =>
      unfold right_of_split at ih ⊢
      simp only [List.map_cons, List.count_cons, List.filter_cons]
      by_cases hv : p < v
      · simp [hv, ih]
      · simp [hv, ih]

/-- The two sides of a threshold partition the feature values. -/
theorem length_filter_le_add_gt (p : ℚ) (feat : List ℚ) :
    (feat.filter (fun v => decide (v ≤ p))).length +
      (feat.filter (fun v => decide (p < v))).length = feat.length := by
  induction feat with
  | nil => rfl
  | cons v fs ih =>
      simp only [List.filter_cons]
      by_cases hv : p < v
      · have hle : ¬ v ≤ p := not_le.mpr hv
        simp [hv, hle]
        omega
      · have hle : v ≤ p := not_lt.mp hv
        simp [hv, hle]
        omega

/-- Masking the curve rows with the right-membership mask selects exactly the
rows whose feature value is strictly greater than the split point. -/
theorem boolMask_right_eq (p : ℚ) : ∀ (feat : List ℚ) (ice : List (List ℚ)),
    feat.length = ice.length →
    boolMask (right_of_split p feat) ice = specRight p feat ice := by
  intro feat
  induction feat with
  | nil =>
      intro ice h
      cases ice with
      | nil => rfl
      | cons r rs => simp at h
  | cons v fs ih =>
      intro ice h
      cases ice with
      | nil => simp at h
      | cons r rs =>
          have hlen : fs.length = rs.length := by simpa using h
          have hrec := ih rs hlen
          unfold boolMask right_of_split specRight at hrec ⊢
          simp only [List.map_cons, List.zip_cons_cons, List.filterMap_cons]
          by_cases hv : p < v
          · simp [hv, hrec]
          · simp [hv, hrec]

/-- Masking the curve rows with the negated right-membership mask selects
exactly the rows whose feature value is at most the split point. -/
theorem boolMask_left_eq (p : ℚ) : ∀ (feat : List ℚ) (ice : List (List ℚ)),
    feat.length = ice.length →
    boolMask ((right_of_split p feat).map (fun b => !b)) ice = specLeft p feat ice := by
  intro feat
  induction feat with
  | nil =>
      intro ice h
      cases ice with
      | nil => rfl
      | cons r rs => simp at h
  | cons v fs ih =>
      intro ice h
      cases ice with
      | nil => simp at h
      | cons r rs =>
          have hlen : fs.length = rs.length := by simpa using h
          have hrec := ih rs hlen
          unfold boolMask right_of_split specLeft at hrec ⊢
          simp only [List.map_map] at hrec
          simp only [List.map_cons, List.map_map, List.zip_cons_cons, List.filterMap_cons]
          by_cases hv : p < v
          · have hle : ¬ v ≤ p := not_le.mpr hv
            simp [hv, hle, hrec]
          · have hle : v ≤ p := not_lt.mp hv
            simp [hv, hle, hrec]

/-- The left partition has as many rows as there are feature values at most
the split point. -/
theorem specLeft_length (p : ℚ) : ∀ (feat : List ℚ) (ice : List (List ℚ)),
    feat.length = ice.length →
    (specLeft p feat ice).length = (feat.filter (fun v => decide (v ≤ p))).length := by
  intro feat
  induction feat with
  | nil =>
      intro ice h
      cases ice with
      | nil => rfl
      | cons r rs => simp at h
  | cons v fs ih =>
      intro ice h
      cases ice with
      | nil => simp at h
      | cons r rs =>
          have hlen : fs.length = rs.length := by simpa using h
          have hrec := ih rs hlen
          unfold specLeft at hrec ⊢
          simp only [List.zip_cons_cons, List.filterMap_cons, List.filter_cons]
          by_cases hv : v ≤ p
          · simp [hv, hrec]
          · simp [hv, hrec]

/-- The right partition has as many rows as there are feature values strictly
greater than the split point. -/
theorem specRight_length (p : ℚ) : ∀ (feat : List ℚ) (ice : List (List ℚ)),
    feat.length = ice.length →
    (specRight p feat ice).length = (feat.filter (fun v => decide (p < v))).length := by
  intro feat
  induction feat with
  | nil =>
      intro ice h
      cases ice with
      | nil => rfl
      | cons r rs => simp at h
  | cons v fs ih =>
      intro ice h
      cases ice with
      | nil => simp at h
      | cons r rs =>
          have hlen : fs.length = rs.length := by simpa using h
          have hrec := ih rs hlen
          unfold specRight at hrec ⊢
          simp only [List.zip_cons_cons, List.filterMap_cons, List.filter_cons]
          by_cases hv : p < v
          · simp [hv, hrec]
          · simp [hv, hrec]

/-- Claim C9: for every split-point candidate, feature array, curve
collection, minimum node size and objective function, perform_split returns
infinite cost exactly when the count of values strictly greater than the
candidate, or the count of values at most the candidate, is below the
minimum node size; otherwise it returns the objective of the left partition
(values at most the candidate) plus the objective of the right partition
(values strictly greater). -/
theorem perform_split_characterization (p : ℚ) (feature : List ℚ)
    (ice : List (List ℚ)) (m : ℕ) (f : List (List ℚ) → ℚ)
    (hlen : feature.length = ice.length) :
    (perform_split p feature ice m (fun rows => Except.ok (f rows)) = Except.ok ⊤ ↔
      (feature.filter (fun v => decide (p < v))).length < m ∨
      (feature.filter (fun v => decide (v ≤ p))).length < m) ∧
    ((m ≤ (feature.filter (fun v => decide (p < v))).length ∧
      m ≤ (feature.filter (fun v => decide (v ≤ p))).length) →
      perform_split p feature ice m (fun rows => Except.ok (f rows)) =
        Except.ok ((f (specLeft p feature ice) + f (specRight p feature ice) : ℚ) : WithTop ℚ)) := by
  have hsum := length_filter_le_add_gt p feature
  simp only [perform_split, count_right_of_split p feature]
  split_ifs with hguard
  · constructor
    · constructor
      · intro _
        omega
      · intro _
        rfl
    · intro hboth
      exfalso
      omega
  · have hres : (do
        let l ← Except.ok (f (boolMask ((right_of_split p feature).map (fun b => !b)) ice))
        let r ← Except.ok (f (boolMask (right_of_split p feature) ice))
        Except.ok ((l + r : ℚ) : WithTop ℚ) : Except String (WithTop ℚ)) =
        Except.ok ((f (specLeft p feature ice) + f (specRight p feature ice) : ℚ) : WithTop ℚ) := by
      rw [boolMask_left_eq p feature ice hlen, boolMask_right_eq p feature ice hlen]
      rfl
    rw [hres]
    constructor
    · constructor
      · intro hok
        exact absurd (Except.ok.inj hok) WithTop.coe_ne_top
      · intro hor
        exfalso
        omega
    · intro _
      rfl

/-- Witness for claim C9 at a concrete accepted split, with SS_L2 as the
objective. -/
theorem perform_split_characterization_witness :
    perform_split 1 [0, 2] [[0], [1]] 1 (fun rows => Except.ok (SS_L2 rows)) =
      Except.ok ((SS_L2 (specLeft 1 [0, 2] [[0], [1]]) +
        SS_L2 (specRight 1 [0, 2] [[0], [1]]) : ℚ) : WithTop ℚ) :=
  (perform_split_characterization 1 [0, 2] [[0], [1]] 1 SS_L2 rfl).2 (by decide)

/-- Claim C10: with a positive minimum node size, whenever either partition
of a candidate split is empty, perform_split takes the infinite-cost
rejection branch; the objective callable (here an arbitrary one, including
one that would raise) is never consulted, so it is never invoked on an empty
partition. -/
theorem perform_split_rejects_empty_side (p : ℚ) (feature : List ℚ)
    (ice : List (List ℚ)) (m : ℕ) (objective : List (List ℚ) → Except String ℚ)
    (hm : 1 ≤ m) (hlen : feature.length = ice.length)
    (hemp : specLeft p feature ice = [] ∨ specRight p feature ice = []) :
    perform_split p feature ice m objective = Except.ok ⊤ := by
  have hsum := length_filter_le_add_gt p feature
  have hL := specLeft_length p feature ice hlen
  have hR := specRight_length p feature ice hlen
  have h0 : (feature.filter (fun v => decide (v ≤ p))).length = 0 ∨
      (feature.filter (fun v => decide (p < v))).length = 0 := by
    rcases hemp with hl | hr
    · left
      rw [← hL, hl]
      rfl
    · right
      rw [← hR, hr]
      rfl
  simp only [perform_split, count_right_of_split p feature]
  rw [if_pos]
  omega

/-- Witness for claim C10 at a concrete empty right partition, with the
raising callable as the objective. -/
theorem perform_split_rejects_empty_side_witness :
    perform_split 5 [0, 1] [[0], [0]] 1 fbsCallable = Except.ok ⊤ :=
  perform_split_rejects_empty_side 5 [0, 1] [[0], [0]] 1 fbsCallable (by decide) rfl
    (Or.inr (by decide))

/-- Elements emitted by the fuel-driven range lie between start (inclusive)
and stop (exclusive). -/
theorem pyRangeAux_mem : ∀ (fuel start stop step j : ℕ),
    j ∈ pyRangeAux fuel start stop step → start ≤ j ∧ j < stop := by
  intro fuel
  induction fuel with
  | zero =>
      intro start stop step j hj
      simp [pyRangeAux] at hj
  | succ f ih =>
      intro start stop step j hj
      unfold pyRangeAux at hj
      split at hj
      · rcases List.mem_cons.mp hj with rfl | hj2
        · exact ⟨Nat.le_refl j, by assumption⟩
        · have h2 := ih (start + step) stop step j hj2
          exact ⟨Nat.le_trans (Nat.le_add_right start step) h2.1, h2.2⟩
      · simp at hj

/-- Elements of a Python range lie between start (inclusive) and stop
(exclusive). -/
theorem pyRange_mem (s t st j : ℕ) (h : j ∈ pyRange s t st) : s ≤ j ∧ j < t := by
  unfold pyRange at h
  split at h
  · simp at h
  · exact pyRangeAux_mem _ s t st j h

/-- In a sorted list, at least i + 1 elements are at most the element at
position i. -/
theorem sorted_count_le (L : List ℚ) (hs : L.Sorted (· ≤ ·)) (i : ℕ) (hi : i < L.length) :
    i + 1 ≤ (L.filter (fun v => decide (v ≤ L.getD i 0))).length := by
  have htake : ∀ a ∈ L.take (i + 1), decide (a ≤ L.getD i 0) = true := by
    intro a ha
    obtain ⟨j, hj, hja⟩ := List.mem_iff_getElem.mp ha
    have hjlen : j < L.length := by
      have := hj
      rw [List.length_take] at this
      omega
    have hji : j ≤ i := by
      have := hj
      rw [List.length_take] at this
      omega
    have hgv : (L.take (i + 1))[j] = L[j] := @List.getElem_take ℚ L (i + 1) j hj
    have hle : L[j] ≤ L[i] := by
      have := hs.rel_get_of_le (a := ⟨j, hjlen⟩) (b := ⟨i, hi⟩) (by simpa using hji)
      simpa using this
    rw [List.getD_eq_getElem L 0 hi]
    rw [← hja, hgv]
    simpa using hle
  have hsplit : L.filter (fun v => decide (v ≤ L.getD i 0)) =
      (L.take (i + 1)).filter (fun v => decide (v ≤ L.getD i 0)) ++
      (L.drop (i + 1)).filter (fun v => decide (v ≤ L.getD i 0)) := by
    rw [← List.filter_append, List.take_append_drop]
  rw [hsplit, List.length_append]
  have heq : (L.take (i + 1)).filter (fun v => decide (v ≤ L.getD i 0)) = L.take (i + 1) :=
    List.filter_eq_self.mpr htake
  rw [heq, List.length_take]
  omega

/-- In a sorted duplicate-free list, all elements after position i are
strictly greater than the element at position i. -/
theorem sorted_count_gt (L : List ℚ) (hs : L.Sorted (· ≤ ·)) (hnd : L.Nodup)
    (i : ℕ) (hi : i < L.length) :
    L.length - (i + 1) ≤ (L.filter (fun v => decide (L.getD i 0 < v))).length := by
  have hdrop : ∀ a ∈ L.drop (i + 1), decide (L.getD i 0 < a) = true := by
    intro a ha
    obtain ⟨j, hj, hja⟩ := List.mem_iff_getElem.mp ha
    have hjlen : i + 1 + j < L.length := by
      have := hj
      rw [List.length_drop] at this
      omega
    have hgv : (L.drop (i + 1))[j] = L[i + 1 + j] := @List.getElem_drop ℚ L (i + 1) j hj
    have hle : L[i] ≤ L[i + 1 + j] := by
      have := hs.rel_get_of_le (a := ⟨i, hi⟩) (b := ⟨i + 1 + j, hjlen⟩) (by
        simp
        omega)
      simpa using this
    have hne : L[i] ≠ L[i + 1 + j] := by
      intro hcontra
      have := (hnd.getElem_inj_iff).mp hcontra
      omega
    rw [List.getD_eq_getElem L 0 hi]
    rw [← hja, hgv]
    simpa using lt_of_le_of_ne hle hne
  have hsplit : L.filter (fun v => decide (L.getD i 0 < v)) =
      (L.take (i + 1)).filter (fun v => decide (L.getD i 0 < v)) ++
      (L.drop (i + 1)).filter (fun v => decide (L.getD i 0 < v)) := by
    rw [← List.filter_append, List.take_append_drop]
  rw [hsplit, List.length_append]
  have heq : (L.drop (i + 1)).filter (fun v => decide (L.getD i 0 < v)) = L.drop (i + 1) :=
    List.filter_eq_self.mpr hdrop
  rw [heq, List.length_drop]
  omega

/-- Claim C5 counterexample: on the tied values [5,5,5,5,5,9] with minimum
partition size 2, the generator produces the candidate 5, yet only one value
is strictly greater than 5, so splitting there leaves fewer than 2 elements
on the right side - the claim as stated is false. -/
theorem generate_candidates_min_size_violated :
    (generate_split_candidates_numeric [5, 5, 5, 5, 5, 9] none 2).toOption = some [5] ∧
      (([5, 5, 5, 5, 5, 9] : List ℚ).filter (fun v => decide ((5 : ℚ) < v))).length = 1 := by
  constructor
  · rfl
  · rfl

/-- Claim C5 as amended: for a positive minimum partition size m and
pairwise-distinct feature values, every candidate produced by the numeric
generator (no quantile cap, i.e. the every-m-th-sorted-boundary-value
construction the claim describes) leaves at least m elements on each side of
the at-most / strictly-greater split. -/
theorem generate_candidates_valid_of_nodup (data : List ℚ) (m : ℕ) (c : ℚ)
    (cands : List ℚ) (hm : 0 < m) (hnd : data.Nodup)
    (hok : generate_split_candidates_numeric data none m = Except.ok cands)
    (hc : c ∈ cands) :
    m ≤ (data.filter (fun v => decide (v ≤ c))).length ∧
    m ≤ (data.filter (fun v => decide (c < v))).length := by
  unfold generate_split_candidates_numeric at hok
  rw [if_neg (Nat.pos_iff_ne_zero.mp hm)] at hok
  have hcands : cands = npUnique ((pyRange m (data.length - m) m).map
      (fun i => (data.insertionSort (· ≤ ·)).getD i 0)) := (Except.ok.inj hok).symm
  have hmem : c ∈ (pyRange m (data.length - m) m).map
      (fun i => (data.insertionSort (· ≤ ·)).getD i 0) := by
    have hc2 := hc
    rw [hcands] at hc2
    unfold npUnique at hc2
    exact (List.Perm.mem_iff (List.perm_insertionSort _ _)).mp (List.mem_dedup.mp hc2)
  obtain ⟨i, hiR, hci⟩ := List.mem_map.mp hmem
  obtain ⟨him, hit⟩ := pyRange_mem _ _ _ i hiR
  have hperm := List.perm_insertionSort (fun v w : ℚ => v ≤ w) data
  have hlenL : (data.insertionSort (· ≤ ·)).length = data.length := hperm.length_eq
  have hiL : i < (data.insertionSort (· ≤ ·)).length := by omega
  have hsort : (data.insertionSort (· ≤ ·)).Sorted (· ≤ ·) :=
    List.sorted_insertionSort _ _
  have hndL : (data.insertionSort (· ≤ ·)).Nodup := hperm.nodup_iff.mpr hnd
  have h1 := sorted_count_le (data.insertionSort (· ≤ ·)) hsort i hiL
  have h2 := sorted_count_gt (data.insertionSort (· ≤ ·)) hsort hndL i hiL
  rw [hci] at h1 h2
  have hle : (data.filter (fun v => decide (v ≤ c))).length =
      ((data.insertionSort (· ≤ ·)).filter (fun v => decide (v ≤ c))).length :=
    ((hperm.filter _).length_eq).symm
  have hgt : (data.filter (fun v => decide (c < v))).length =
      ((data.insertionSort (· ≤ ·)).filter (fun v => decide (c < v))).length :=
    ((hperm.filter _).length_eq).symm
  constructor
  · rw [hle]
    omega
  · rw [hgt]
    omega

/-- Witness for the amended claim C5 on six distinct values with minimum
partition size 2: the sole candidate 3 leaves at least two on each side. -/
theorem generate_candidates_valid_of_nodup_witness :
    0 < 2 ∧ ([1, 2, 3, 4, 5, 6] : List ℚ).Nodup ∧
      (2 ≤ (([1, 2, 3, 4, 5, 6] : List ℚ).filter (fun v => decide (v ≤ (3 : ℚ)))).length ∧
       2 ≤ (([1, 2, 3, 4, 5, 6] : List ℚ).filter (fun v => decide ((3 : ℚ) < v))).length) :=
  ⟨by decide, by decide,
    generate_candidates_valid_of_nodup [1, 2, 3, 4, 5, 6] 2 3 [3] (by decide) (by decide)
      rfl (by decide)⟩

/-- The kernel-evaluable rational embedding of a natural number agrees with
the cast. -/
theorem qOfNat_eq_cast (n : ℕ) : qOfNat n = (n : ℚ) := by
  unfold qOfNat
  rw [Rat.mkRat_one]
  norm_num

/-- A sum of nonnegative rationals is zero exactly when every summand is. -/
theorem list_sum_zero_iff : ∀ (l : List ℚ), (∀ x ∈ l, 0 ≤ x) →
    (l.sum = 0 ↔ ∀ x ∈ l, x = 0) := by
  intro l
  induction l with
  | nil =>
      intro _
      simp
  | cons a tl ih =>
      intro h
      have ha : 0 ≤ a := h a (List.mem_cons_self a tl)
      have htl : ∀ x ∈ tl, 0 ≤ x := fun x hx => h x (List.mem_cons_of_mem a hx)
      have hsum : 0 ≤ tl.sum := List.sum_nonneg htl
      simp only [List.sum_cons, List.mem_cons]
      constructor
      · intro h0
        have ha0 : a = 0 := by linarith
        have hs0 : tl.sum = 0 := by linarith
        intro x hx
        rcases hx with rfl | hx
        · exact ha0
        · exact (ih htl).mp hs0 x hx
      · intro hall
        have ha0 : a = 0 := hall a (Or.inl rfl)
        have hs0 : tl.sum = 0 := (ih htl).mpr (fun x hx => hall x (Or.inr hx))
        rw [ha0, hs0, add_zero]

/-- Reading a mapped range at a position inside the range. -/
theorem getD_range_map (f : ℕ → ℚ) (n j : ℕ) (hj : j < n) :
    ((List.range n).map f).getD j 0 = f j := by
  have hlen : j < ((List.range n).map f).length := by simpa using hj
  rw [List.getD_eq_getElem _ 0 hlen]
  simp

/-- One row of the dispersion objective vanishes exactly when the row agrees
with the mean curve at every grid column. -/
theorem inner_sq_sum_zero_iff (y : List ℚ) (L : ℕ) (r : List ℚ) :
    ((List.range L).map (fun j => (r.getD j 0 - y.getD j 0) ^ 2)).sum = 0 ↔
      ∀ j, j < L → r.getD j 0 = y.getD j 0 := by
  rw [list_sum_zero_iff]
  · constructor
    · intro h j hj
      have h1 := h _ (List.mem_map_of_mem _ (List.mem_range.mpr hj))
      exact sub_eq_zero.mp (sq_eq_zero_iff.mp h1)
    · intro h x hx
      obtain ⟨j, hjr, rfl⟩ := List.mem_map.mp hx
      rw [h j (List.mem_range.mp hjr), sub_self]
      simp
  · intro x hx
    obtain ⟨j, hjr, rfl⟩ := List.mem_map.mp hx
    exact sq_nonneg _

/-- The dispersion objective vanishes exactly when every row agrees with the
column-wise mean curve at every grid column. -/
theorem SS_L2_zero_iff_mean (rows : List (List ℚ)) :
    SS_L2 rows = 0 ↔ ∀ r ∈ rows, ∀ j, j < ncols rows →
      r.getD j 0 = (npMeanAxis0 rows).getD j 0 := by
  have hSS : SS_L2 rows = (rows.map
      (fun r => ((List.range (ncols rows)).map
        (fun j => (r.getD j 0 - (npMeanAxis0 rows).getD j 0) ^ 2)).sum)).sum := rfl
  rw [hSS, list_sum_zero_iff]
  · constructor
    · intro h r hr j hj
      exact (inner_sq_sum_zero_iff _ _ _).mp (h _ (List.mem_map_of_mem _ hr)) j hj
    · intro h x hx
      obtain ⟨r, hr, rfl⟩ := List.mem_map.mp hx
      exact (inner_sq_sum_zero_iff _ _ _).mpr (h r hr)
  · intro x hx
    obtain ⟨r, hr, rfl⟩ := List.mem_map.mp hx
    apply List.sum_nonneg
    intro z hz
    obtain ⟨j, hj, rfl⟩ := List.mem_map.mp hz
    exact sq_nonneg _

/-- When all rows coincide, the column-wise mean curve is that common row. -/
theorem npMeanAxis0_getD_of_all_eq (rows : List (List ℚ)) (r0 : List ℚ) (hne : rows ≠ [])
    (hall : ∀ r ∈ rows, r = r0) (j : ℕ) (hj : j < ncols rows) :
    (npMeanAxis0 rows).getD j 0 = r0.getD j 0 := by
  unfold npMeanAxis0
  rw [getD_range_map _ _ j hj]
  have h1 : rows.map (fun r => r.getD j 0) = rows.map (fun _ => r0.getD j 0) :=
    List.map_congr_left (fun a ha => by rw [hall a ha])
  have h2 : rows.map (fun _ => r0.getD j 0) = List.replicate rows.length (r0.getD j 0) := by
    simp [List.map_const']
  have hn : (rows.length : ℚ) ≠ 0 := by
    have := List.length_pos.mpr hne
    exact_mod_cast Nat.pos_iff_ne_zero.mp this
  rw [h1, h2, List.sum_replicate, qOfNat_eq_cast, nsmul_eq_mul]
  field_simp

/-- Claim C7: for a non-empty rectangular curve collection, the dispersion
objective SS_L2 is non-negative, and it is zero exactly when every row of
the collection is identical. -/
theorem SS_L2_nonneg_and_zero_iff (rows : List (List ℚ)) (hne : rows ≠ [])
    (hrect : ∀ r ∈ rows, r.length = ncols rows) :
    0 ≤ SS_L2 rows ∧ (SS_L2 rows = 0 ↔ ∀ r ∈ rows, ∀ s ∈ rows, r = s) := by
  have hSS : SS_L2 rows = (rows.map
      (fun r => ((List.range (ncols rows)).map
        (fun j => (r.getD j 0 - (npMeanAxis0 rows).getD j 0) ^ 2)).sum)).sum := rfl
  have hnonneg : 0 ≤ SS_L2 rows := by
    rw [hSS]
    apply List.sum_nonneg
    intro x hx
    obtain ⟨r, hr, rfl⟩ := List.mem_map.mp hx
    apply List.sum_nonneg
    intro z hz
    obtain ⟨j, hj, rfl⟩ := List.mem_map.mp hz
    exact sq_nonneg _
  refine ⟨hnonneg, ?_⟩
  rw [SS_L2_zero_iff_mean]
  constructor
  · intro h r hr s hs
    have hrL := hrect r hr
    have hsL := hrect s hs
    apply List.ext_getElem (by rw [hrL, hsL])
    intro i h1 h2
    have hiL : i < ncols rows := by
      rw [← hrL]
      exact h1
    have e1 : r[i] = r.getD i 0 := (List.getD_eq_getElem r 0 h1).symm
    have e2 : s[i] = s.getD i 0 := (List.getD_eq_getElem s 0 h2).symm
    rw [e1, e2, h r hr i hiL, h s hs i hiL]
  · intro h r hr j hj
    have hhead : rows.head hne ∈ rows := List.head_mem hne
    have hall : ∀ t ∈ rows, t = rows.head hne := fun t ht => h t ht _ hhead
    rw [npMeanAxis0_getD_of_all_eq rows (rows.head hne) hne hall j hj, hall r hr]

/-- Witness for claim C7 on a concrete two-row collection with identical
rows. -/
theorem SS_L2_nonneg_and_zero_iff_witness :
    (0 ≤ SS_L2 [[0, 1], [0, 1]] ∧
      (SS_L2 [[0, 1], [0, 1]] = 0 ↔
        ∀ r ∈ ([[0, 1], [0, 1]] : List (List ℚ)), ∀ s ∈ ([[0, 1], [0, 1]] : List (List ℚ)),
          r = s)) :=
  SS_L2_nonneg_and_zero_iff [[0, 1], [0, 1]] (by decide) (by decide)
